import Mathlib

/-!
Verification of the Reflexive Python SDK core (`reflexive/app_state.py`,
`reflexive/core.py`) against its natural-language specification.

The Python code is shallowly embedded: pure methods become Lean functions,
external effects (clock, pid, OS environment, the HTTP monitor, the regex
engine) become explicit parameters, and Python exceptions become `Except`
results.
-/

namespace Reflexive

/-- A JSON-serializable value, the payload type of state entries and log
metadata (Python `Any`, restricted to what the SDK actually stores). -/
inductive Value where
  | null
  | bool (b : Bool)
  | int (n : Int)
  | str (s : String)
  deriving Repr, DecidableEq

/-- `LogEntry` from `reflexive/types.py`: a `TypedDict` with fields
`type`, `message`, `timestamp` (an ISO string from `datetime.now()`),
and optional `meta` mapping. -/
structure LogEntry where
  type : String
  message : String
  timestamp : String
  meta : Option (List (String × Value)) := none
  deriving Repr, DecidableEq

/-- `AppState` from `reflexive/app_state.py`: `_logs` is a
`deque(maxlen=max_logs)`, `_custom_state` a dict (modelled as an
insertion-ordered association list), `_start_time` and `_pid` are
captured from the OS at construction. -/
structure AppState where
  maxLogs : Nat
  logs : List LogEntry
  customState : List (String × Value)
  startTime : Nat
  pid : Nat
  deriving Repr, DecidableEq

/-- `AppState.__init__(max_logs=500)`; `time.time()` and `os.getpid()` are
external inputs. -/
def AppState.init (maxLogs : Nat := 500) (startTime : Nat) (pid : Nat) : AppState :=
  { maxLogs := maxLogs
    logs := []
    customState := []
    startTime := startTime
    pid := pid }

/-- Appending to a CPython `deque` with `maxlen`: a full deque discards the
oldest (leftmost) element before the append; `maxlen = 0` keeps nothing. -/
def dequeAppend (maxlen : Nat) (l : List α) (e : α) : List α :=
  if maxlen = 0 then []
  else if l.length < maxlen then l ++ [e]
  else l.drop 1 ++ [e]

/-- `AppState.log(log_type, message, meta=None)`; the timestamp
(`datetime.now().isoformat()`) is an external input. -/
def AppState.log (s : AppState) (logType message : String) (now : String)
    (meta : Option (List (String × Value)) := none) : AppState :=
  { s with logs := dequeAppend s.maxLogs s.logs ⟨logType, message, now, meta⟩ }

/-- The log entry produced by `AppState.log` for a (type, message, timestamp)
triple with no metadata. -/
def mkEntry (e : String × String × String) : LogEntry :=
  { type := e.1, message := e.2.1, timestamp := e.2.2, meta := none }

/-- A sequence of `AppState.log` calls, one per (type, message, timestamp)
triple. -/
def AppState.logMany (s : AppState) (es : List (String × String × String)) : AppState :=
  es.foldl (fun st e => st.log e.1 e.2.1 e.2.2) s

/-- The last `n` elements of a list, in order. -/
def lastN (n : Nat) (l : List α) : List α :=
  l.drop (l.length - n)

lemma length_lastN (n : Nat) (l : List α) : (lastN n l).length = min n l.length := by
  rw [lastN, List.length_drop]
  omega

lemma lastN_length_le (n : Nat) (l : List α) : (lastN n l).length ≤ n := by
  rw [length_lastN]
  omega

lemma dequeAppend_lastN (N : Nat) (L : List α) (e : α) :
    dequeAppend N (lastN N L) e = lastN N (L ++ [e]) := by
  rcases Nat.eq_zero_or_pos N with h0 | hpos
  · subst h0
    simp [dequeAppend, lastN]
  · by_cases hlen : L.length < N
    · have h1 : L.length - N = 0 := by omega
      have h2 : L.length + 1 - N = 0 := by omega
      simp [dequeAppend, lastN, h1, h2, hlen, hpos.ne']
    · push_neg at hlen
      have h1 : (lastN N L).length = N := by
        rw [length_lastN]
        omega
      rw [dequeAppend, if_neg (by omega), if_neg (by rw [h1]; omega)]
      rw [lastN, lastN, List.drop_drop]
      have h2 : (L ++ [e]).length - N = L.length - N + 1 := by
        simp only [List.length_append, List.length_singleton]
        omega
      rw [h2, List.drop_append_of_le_length (by omega)]

lemma foldl_dequeAppend (N : Nat) (f : β → α) (es : List β) (L : List α) :
    es.foldl (fun l e => dequeAppend N l (f e)) (lastN N L) = lastN N (L ++ es.map f) := by
  induction es generalizing L with
  | nil => simp
  | cons e t ih =>
    simp only [List.foldl_cons, List.map_cons]
    rw [dequeAppend_lastN, ih (L ++ [f e])]
    simp

lemma log_maxLogs (s : AppState) (ty m now : String) (meta : Option (List (String × Value))) :
    (s.log ty m now meta).maxLogs = s.maxLogs := rfl

lemma log_logs (s : AppState) (ty m now : String) (meta : Option (List (String × Value))) :
    (s.log ty m now meta).logs = dequeAppend s.maxLogs s.logs ⟨ty, m, now, meta⟩ := rfl

lemma logMany_logs (s : AppState) (es : List (String × String × String)) :
    (s.logMany es).logs =
      es.foldl (fun l e => dequeAppend s.maxLogs l (mkEntry e)) s.logs := by
  induction es generalizing s with
  | nil => rfl
  | cons e t ih =>
    simp only [AppState.logMany, List.foldl_cons]
    have h := ih (s.log e.1 e.2.1 e.2.2)
    simp only [AppState.logMany] at h
    rw [h, log_maxLogs, log_logs]
    rfl

lemma logMany_maxLogs (s : AppState) (es : List (String × String × String)) :
    (s.logMany es).maxLogs = s.maxLogs := by
  induction es generalizing s with
  | nil => rfl
  | cons e t ih =>
    simp only [AppState.logMany, List.foldl_cons]
    have h := ih (s.log e.1 e.2.1 e.2.2)
    simp only [AppState.logMany] at h
    rw [h, log_maxLogs]

lemma logMany_logs_from_empty (N t p : Nat) (es : List (String × String × String)) :
    ((AppState.init N t p).logMany es).logs = lastN N (es.map mkEntry) := by
  rw [logMany_logs]
  have h := foldl_dequeAppend N mkEntry es ([] : List LogEntry)
  simp only [List.nil_append] at h
  have hempty : (AppState.init N t p).logs = lastN N ([] : List LogEntry) := by
    simp [AppState.init, lastN]
  rw [show (AppState.init N t p).maxLogs = N from rfl, hempty, h]

/-- C1: for every capacity `N` and every sequence of `M > N` appends, the
log store holds at most `N` entries after every prefix of the appends, and
afterwards holds exactly the `N` most recently appended entries in their
original append order (the oldest were evicted). -/
theorem logStore_bounded_fifo (N t p : Nat) (es : List (String × String × String))
    (hM : es.length > N) :
    (∀ k, (((AppState.init N t p).logMany (es.take k)).logs.length ≤ N)) ∧
    ((AppState.init N t p).logMany es).logs =
      (es.map mkEntry).drop (es.length - N) ∧
    ((AppState.init N t p).logMany es).logs.length = N := by
  refine ⟨fun k => ?_, ?_, ?_⟩
  · rw [logMany_logs_from_empty]
    exact lastN_length_le N _
  · rw [logMany_logs_from_empty]
    simp [lastN]
  · rw [logMany_logs_from_empty, length_lastN]
    simp
    omega

/-- Witness for C1 at capacity 1 with two appends. -/
theorem logStore_bounded_fifo_witness :
    (∀ k, (((AppState.init 1 0 0).logMany ([("info", "a", "t1"), ("info", "b", "t2")].take k)).logs.length ≤ 1)) ∧
    ((AppState.init 1 0 0).logMany [("info", "a", "t1"), ("info", "b", "t2")]).logs =
      ([("info", "a", "t1"), ("info", "b", "t2")].map mkEntry).drop 1 ∧
    ((AppState.init 1 0 0).logMany [("info", "a", "t1"), ("info", "b", "t2")]).logs.length = 1 :=
  logStore_bounded_fifo 1 0 0 [("info", "a", "t1"), ("info", "b", "t2")] (by decide)

/-- Python list slicing `l[i:]`: a negative start counts from the end
(clamped to 0 by `Int.toNat`), a non-negative start drops that many
elements (an out-of-range start yields `[]`). -/
def pySliceFrom (l : List α) (i : Int) : List α :=
  if i < 0 then l.drop ((l.length : Int) + i).toNat else l.drop i.toNat

/-- The `if log_type:` filter inside `AppState.get_logs`; the empty string
is falsy in Python, so only a non-empty `log_type` filters. -/
def filterByType (logs : List LogEntry) (logType : Option String) : List LogEntry :=
  match logType with
  | none => logs
  | some t => if t = "" then logs else logs.filter (fun lg => lg.type = t)

/-- `AppState.get_logs(count=None, log_type=None)`: copies the deque to a
list, filters by type when given, and when `count` is given takes the
Python slice `logs[-count:]`. -/
def AppState.get_logs (s : AppState) (count : Option Int := none)
    (logType : Option String := none) : List LogEntry :=
  let logs := filterByType s.logs logType
  match count with
  | none => logs
  | some c => pySliceFrom logs (-c)

lemma filterByType_length_le (logs : List LogEntry) (t : Option String) :
    (filterByType logs t).length ≤ logs.length := by
  cases t with
  | none => exact le_rfl
  | some t =>
    simp only [filterByType]
    split
    · exact le_rfl
    · exact List.length_filter_le _ _

/-- A store retaining one entry, used as a concrete test state. -/
def entryA : LogEntry := { type := "info", message := "hello", timestamp := "t0" }

/-- A concrete `AppState` holding exactly `entryA`. -/
def sOne : AppState := { maxLogs := 500, logs := [entryA], customState := [], startTime := 0, pid := 0 }

/-- C2 counterexample: with one retained entry, `get_logs(count=0)` returns
that entry — Python evaluates `logs[-0:]` as `logs[0:]`, the whole list —
so the result has 1 > min(0, size) = 0 entries and the claim fails at
K = 0. -/
theorem get_logs_count_zero_counterexample :
    (sOne.get_logs (some 0) none).length = 1 ∧ min 0 sOne.logs.length = 0 := by
  constructor
  · rfl
  · rfl

/-- C2 (amended to positive K): for every store contents and every K ≥ 1,
`get_logs(count=K)` returns exactly the last K entries of the
type-filtered list (oldest-first), hence at most min(K, store size)
entries. -/
theorem get_logs_count_positive (s : AppState) (K : Int) (logType : Option String)
    (hK : 1 ≤ K) :
    s.get_logs (some K) logType = lastN K.toNat (filterByType s.logs logType) ∧
    (s.get_logs (some K) logType).length ≤ min K.toNat s.logs.length := by
  have hneg : -K < 0 := by omega
  have heq : s.get_logs (some K) logType = lastN K.toNat (filterByType s.logs logType) := by
    simp only [AppState.get_logs, pySliceFrom, if_pos hneg, lastN]
    congr 1
    omega
  refine ⟨heq, ?_⟩
  rw [heq, length_lastN]
  have hle := filterByType_length_le s.logs logType
  omega

/-- Witness for C2 (amended) at K = 1 on the one-entry store. -/
theorem get_logs_count_positive_witness :
    sOne.get_logs (some 1) none = lastN (Int.toNat 1) (filterByType sOne.logs none) ∧
    (sOne.get_logs (some 1) none).length ≤ min (Int.toNat 1) sOne.logs.length :=
  get_logs_count_positive sOne 1 none (by decide)

/-- `AppState.set_state(key, value)`: `self._custom_state[key] = value`, a
Python dict assignment — overwrite in place when the key exists, else
append (dicts preserve insertion order). -/
def stateSet (st : List (String × Value)) (k : String) (v : Value) :
    List (String × Value) :=
  if st.any (fun p => p.1 = k) then
    st.map (fun p => if p.1 = k then (k, v) else p)
  else
    st ++ [(k, v)]

/-- `AppState.get_state(key)` for a given key:
`self._custom_state.get(key)` — `none` models Python `None` for a missing
key. -/
def stateGet (st : List (String × Value)) (k : String) : Option Value :=
  (st.find? (fun p => p.1 = k)).map (fun p => p.2)

lemma find?_map_overwrite (st : List (String × Value)) (k : String) (v : Value)
    (h : ∃ p ∈ st, p.1 = k) :
    (st.map (fun p => if p.1 = k then (k, v) else p)).find? (fun p => p.1 = k) =
      some (k, v) := by
  induction st with
  | nil => simp at h
  | cons a t ih =>
    by_cases ha : a.1 = k
    · simp [List.find?_cons, ha]
    · rcases h with ⟨p, hp, hpk⟩
      rcases List.mem_cons.mp hp with rfl | hpt
      · exact absurd hpk ha
      · simp only [List.map_cons, if_neg ha, List.find?_cons]
        rw [decide_eq_false ha]
        exact ih ⟨p, hpt, hpk⟩

lemma find?_append_absent (st : List (String × Value)) (k : String) (v : Value)
    (h : ∀ p ∈ st, p.1 ≠ k) :
    (st ++ [(k, v)]).find? (fun p => p.1 = k) = some (k, v) := by
  induction st with
  | nil => simp [List.find?_cons]
  | cons a t ih =>
    have ha : a.1 ≠ k := h a (List.mem_cons_self a t)
    simp only [List.cons_append, List.find?_cons]
    rw [decide_eq_false ha]
    exact ih (fun p hp => h p (List.mem_cons_of_mem a hp))

lemma stateGet_stateSet (st : List (String × Value)) (k : String) (v : Value) :
    stateGet (stateSet st k v) k = some v := by
  by_cases h : st.any (fun p => p.1 = k)
  · rw [stateSet, if_pos h, stateGet]
    rcases List.any_eq_true.mp h with ⟨p, hp, hpk⟩
    rw [find?_map_overwrite st k v ⟨p, hp, by exact of_decide_eq_true hpk⟩]
    rfl
  · rw [stateSet, if_neg h, stateGet]
    have habs : ∀ p ∈ st, p.1 ≠ k := by
      intro p hp hpk
      exact h (List.any_eq_true.mpr ⟨p, hp, decide_eq_true hpk⟩)
    rw [find?_append_absent st k v habs]
    rfl

/-- C7: for every key, `set(key, v1)` then `set(key, v2)` then `get(key)`
returns v2 (last write wins), and `get` of a key absent from the store
returns the not-found indicator `none` (Python `dict.get` returning
`None`) rather than raising. -/
theorem state_last_write_wins :
    (∀ (st : List (String × Value)) (k : String) (v1 v2 : Value),
      stateGet (stateSet (stateSet st k v1) k v2) k = some v2) ∧
    (∀ (st : List (String × Value)) (k : String),
      (∀ p ∈ st, p.1 ≠ k) → stateGet st k = none) := by
  constructor
  · intro st k v1 v2
    exact stateGet_stateSet (stateSet st k v1) k v2
  · intro st k h
    rw [stateGet, List.find?_eq_none.mpr (fun p hp => by simpa using h p hp)]
    rfl

/-- Witness for C7 on concrete stores. -/
theorem state_last_write_wins_witness :
    stateGet (stateSet (stateSet [] "a" (Value.int 1)) "a" (Value.int 2)) "a" =
      some (Value.int 2) ∧
    stateGet [("a", Value.null)] "b" = none :=
  ⟨state_last_write_wins.1 [] "a" (Value.int 1) (Value.int 2),
   state_last_write_wins.2 [("a", Value.null)] "b" (by decide)⟩

/-- `AppState.search_logs(query)`: `re.compile(query)` then keeps the logs
whose message the compiled pattern matches. The Python regex engine is
external, so it is passed as a `compile` parameter: `re.compile` raising
`re.error` on an invalid pattern becomes a `none` compile result (and the
`.error` return), and a compiled pattern is its `search` predicate over
the message text. -/
def AppState.search_logs (compile : String → Option (String → Bool)) (s : AppState)
    (query : String) : Except String (List LogEntry) :=
  match compile query with
  | none => .error "re.error"
  | some pat => .ok (s.logs.filter (fun lg => pat lg.message))

/-- C8: a syntactically invalid pattern (one the regex engine rejects)
makes `search_logs` fail with the pattern error and return no partial
results — no `.ok` list of entries at all — while a valid pattern
returns exactly the entries whose message matches it. -/
theorem search_logs_error_or_exact_matches
    (compile : String → Option (String → Bool)) (s : AppState) (q : String) :
    (compile q = none →
      AppState.search_logs compile s q = .error "re.error" ∧
      ∀ l, AppState.search_logs compile s q ≠ .ok l) ∧
    (∀ pat, compile q = some pat →
      AppState.search_logs compile s q = .ok (s.logs.filter (fun lg => pat lg.message))) := by
  constructor
  · intro h
    constructor
    · simp only [AppState.search_logs, h]
    · intro l hl
      simp only [AppState.search_logs, h] at hl
      exact Except.noConfusion hl
  · intro pat h
    simp only [AppState.search_logs, h]

/-- A concrete stand-in regex engine for the witness: the pattern `"("`
is rejected (as Python `re.compile` would); any other pattern compiles to
an equality test against the message. -/
def compileStub : String → Option (String → Bool) :=
  fun q => if q = "(" then none else some (fun m => m == q)

/-- Witness for C8: on the one-entry store, the invalid pattern fails and
a valid pattern returns exactly the matching entry. -/
theorem search_logs_witness :
    AppState.search_logs compileStub sOne "(" = .error "re.error" ∧
    AppState.search_logs compileStub sOne "hello" = .ok [entryA] := by
  constructor
  · exact ((search_logs_error_or_exact_matches compileStub sOne "(").1 rfl).1
  · have h := (search_logs_error_or_exact_matches compileStub sOne "hello").2
      (fun m => m == "hello") rfl
    rw [h]
    rfl

/-- One line of the SSE response read by
`ReflexiveInstance._chat_via_http`, after the external byte/JSON decoding:
a line starting with the `data: ` marker either parses to a JSON object
(carrying its optional `type` and `content` fields, per `chunk.get`) or
fails to parse (`json.JSONDecodeError`); any other line is skipped by the
`startswith` check. -/
inductive SSELine where
  | dataLine (type : Option String) (content : Option String)
  | malformedData
  | other
  deriving Repr, DecidableEq

/-- The body of the per-line loop in `_chat_via_http`: a well-formed data
frame of type `"text"` appends `chunk.get("content", "")` to the
accumulated response; every other line leaves it unchanged. -/
def processLine (acc : String) (l : SSELine) : String :=
  match l with
  | .dataLine ty content => if ty = some "text" then acc ++ content.getD "" else acc
  | .malformedData => acc
  | .other => acc

/-- `ReflexiveInstance._chat_via_http(message)`: the whole body runs under
`try/except Exception`, so the externally-supplied read result is an
`Except`; on success the text fragments are folded up and an empty result
becomes `"No response"` (Python `full_response or "No response"`); an
exception `e` becomes `"Error: " ++ str(e)`. -/
def chatViaHttp (_message : String) (response : Except String (List SSELine)) : String :=
  match response with
  | .error e => "Error: " ++ e
  | .ok lines =>
    let full := lines.foldl processLine ""
    if full = "" then "No response" else full

/-- Python truthiness of `self._cli_port` (an `Optional[int]`): `None` and
`0` are falsy. -/
def truthyPort : Option Nat → Bool
  | some p => p != 0
  | none => false

/-- `ReflexiveInstance.chat(message)`: routes to `_chat_via_http` when
`self._cli_port` is truthy, else returns the standalone sentinel. -/
def ReflexiveInstance.chat (cliPort : Option Nat) (message : String)
    (response : Except String (List SSELine)) : String :=
  if truthyPort cliPort then chatViaHttp message response
  else "Error: Chat requires running under Reflexive CLI (run: reflexive app.py)"

/-- The concatenation, in arrival order, of the content of all
type-`"text"` frames of a stream — the value the spec says `chat`
returns. -/
def claimedTextConcat : List SSELine → String
  | [] => ""
  | .dataLine ty content :: t =>
      (if ty = some "text" then content.getD "" else "") ++ claimedTextConcat t
  | .malformedData :: t => claimedTextConcat t
  | .other :: t => claimedTextConcat t

lemma foldl_processLine (lines : List SSELine) (acc : String) :
    lines.foldl processLine acc = acc ++ claimedTextConcat lines := by
  induction lines generalizing acc with
  | nil => simp [claimedTextConcat, String.append_empty]
  | cons l t ih =>
    cases l with
    | dataLine ty content =>
      rw [List.foldl_cons, ih]
      by_cases hty : ty = some "text"
      · simp [processLine, claimedTextConcat, hty, String.append_assoc]
      · simp [processLine, claimedTextConcat, hty, String.empty_append]
    | malformedData =>
      rw [List.foldl_cons, ih]
      rfl
    | other =>
      rw [List.foldl_cons, ih]
      rfl

lemma textConcat_eq (lines : List SSELine) :
    lines.foldl processLine "" = claimedTextConcat lines := by
  rw [foldl_processLine, String.empty_append]

lemma claimedTextConcat_append (l1 l2 : List SSELine) :
    claimedTextConcat (l1 ++ l2) = claimedTextConcat l1 ++ claimedTextConcat l2 := by
  induction l1 with
  | nil => simp [claimedTextConcat, String.empty_append]
  | cons l t ih =>
    cases l with
    | dataLine ty content =>
      simp only [List.cons_append, claimedTextConcat]
      rw [String.append_assoc]
      congr 1
    | malformedData => simpa [claimedTextConcat] using ih
    | other => simpa [claimedTextConcat] using ih

lemma chat_unfold_truthy (port : Nat) (hport : port ≠ 0) (msg : String)
    (r : Except String (List SSELine)) :
    ReflexiveInstance.chat (some port) msg r = chatViaHttp msg r := by
  rw [ReflexiveInstance.chat, if_pos (by simp [truthyPort, hport])]

/-- C3 counterexample: against a stream whose only frame is a
type-`"text"` frame with empty content, `chat` returns `"No response"`,
which is not the concatenation (the empty string) of the text-frame
contents — so "chat concatenates the content of all type-text frames"
fails on this input. -/
theorem chat_empty_content_counterexample :
    ReflexiveInstance.chat (some 3099) "ping"
        (.ok [SSELine.dataLine (some "text") (some "")]) = "No response" ∧
    claimedTextConcat [SSELine.dataLine (some "text") (some "")] = "" ∧
    ReflexiveInstance.chat (some 3099) "ping"
        (.ok [SSELine.dataLine (some "text") (some "")]) ≠
      claimedTextConcat [SSELine.dataLine (some "text") (some "")] := by
  refine ⟨rfl, rfl, ?_⟩
  decide

/-- C3 (amended): in CHILD mode `chat` returns the concatenation of the
content of all type-`"text"` frames in arrival order whenever that
concatenation is non-empty (an empty concatenation yields
`"No response"`), skipping malformed frames without aborting the read;
in particular the two-frame pong stream returns exactly `"pong ok"`. -/
theorem chat_concatenates_text_frames (port : Nat) (msg : String)
    (l1 l2 : List SSELine) (hport : port ≠ 0)
    (h : claimedTextConcat (l1 ++ l2) ≠ "") :
    ReflexiveInstance.chat (some port) msg (.ok (l1 ++ SSELine.malformedData :: l2)) =
      claimedTextConcat (l1 ++ l2) ∧
    ReflexiveInstance.chat (some port) msg
        (.ok [SSELine.dataLine (some "text") (some "pong "),
              SSELine.dataLine (some "text") (some "ok")]) = "pong ok" := by
  have hskip : claimedTextConcat (l1 ++ SSELine.malformedData :: l2) =
      claimedTextConcat (l1 ++ l2) := by
    rw [claimedTextConcat_append, claimedTextConcat_append]
    rfl
  constructor
  · rw [chat_unfold_truthy port hport]
    simp only [chatViaHttp, textConcat_eq, hskip]
    rw [if_neg h]
  · rw [chat_unfold_truthy port hport]
    rfl

/-- Witness for C3 (amended) at the pong example split around a malformed
frame. -/
theorem chat_concatenates_text_frames_witness :
    ReflexiveInstance.chat (some 3099) "ping"
        (.ok ([SSELine.dataLine (some "text") (some "pong ")] ++
              SSELine.malformedData ::
              [SSELine.dataLine (some "text") (some "ok")])) =
      claimedTextConcat ([SSELine.dataLine (some "text") (some "pong ")] ++
              [SSELine.dataLine (some "text") (some "ok")]) ∧
    ReflexiveInstance.chat (some 3099) "ping"
        (.ok [SSELine.dataLine (some "text") (some "pong "),
              SSELine.dataLine (some "text") (some "ok")]) = "pong ok" :=
  chat_concatenates_text_frames 3099 "ping"
    [SSELine.dataLine (some "text") (some "pong ")]
    [SSELine.dataLine (some "text") (some "ok")]
    (by decide) (by decide)

/-- Whether an SSE line is a well-formed data frame of type `"text"`. -/
def isTextLine : SSELine → Bool
  | .dataLine ty _ => ty = some "text"
  | .malformedData => false
  | .other => false

/-- C10: a CHILD-mode chat whose stream completes without any
type-`"text"` frame (including the empty stream) returns the fixed
non-empty string `"No response"`, not the empty string. -/
theorem chat_no_text_frames_no_response (port : Nat) (msg : String)
    (lines : List SSELine) (hport : port ≠ 0)
    (h : ∀ l ∈ lines, isTextLine l = false) :
    ReflexiveInstance.chat (some port) msg (.ok lines) = "No response" ∧
    ("No response" : String) ≠ "" := by
  have hempty : claimedTextConcat lines = "" := by
    induction lines with
    | nil => rfl
    | cons l t ih =>
      have ht : claimedTextConcat t = "" :=
        ih (fun x hx => h x (List.mem_cons_of_mem l hx))
      cases l with
      | dataLine ty content =>
        have hty : ¬(ty = some "text") := by
          simpa [isTextLine] using h (SSELine.dataLine ty content) (List.mem_cons_self _ _)
        simp only [claimedTextConcat, if_neg hty, ht, String.empty_append]
      | malformedData => exact ht
      | other => exact ht
  refine ⟨?_, by decide⟩
  rw [chat_unfold_truthy port hport]
  simp only [chatViaHttp, textConcat_eq, hempty]
  rfl

/-- Witness for C10 on a stream of only non-text lines. -/
theorem chat_no_text_frames_no_response_witness :
    ReflexiveInstance.chat (some 3099) "ping"
        (.ok [SSELine.other, SSELine.malformedData,
              SSELine.dataLine (some "tool") none]) = "No response" ∧
    ("No response" : String) ≠ "" :=
  chat_no_text_frames_no_response 3099 "ping"
    [SSELine.other, SSELine.malformedData, SSELine.dataLine (some "tool") none]
    (by decide) (by decide)

/-- C5: in STANDALONE mode (no monitor port) `chat` returns the fixed
non-empty sentinel saying chat is unavailable, for every message and
every would-be network outcome; and in every mode a failure of the HTTP
read is converted into an `"Error: "`-prefixed return string rather than
an exception (the model is a total function into `String`). -/
theorem chat_standalone_sentinel_and_no_raise :
    (∀ (msg : String) (r : Except String (List SSELine)),
      ReflexiveInstance.chat none msg r =
        "Error: Chat requires running under Reflexive CLI (run: reflexive app.py)" ∧
      ReflexiveInstance.chat none msg r ≠ "") ∧
    (∀ (cliPort : Option Nat) (msg e : String),
      ∃ rest, ReflexiveInstance.chat cliPort msg (.error e) = "Error: " ++ rest) := by
  constructor
  · intro msg r
    have h1 : ReflexiveInstance.chat none msg r =
        "Error: Chat requires running under Reflexive CLI (run: reflexive app.py)" := rfl
    refine ⟨h1, ?_⟩
    rw [h1]
    decide
  · intro cliPort msg e
    cases cliPort with
    | none =>
      exact ⟨"Chat requires running under Reflexive CLI (run: reflexive app.py)", rfl⟩
    | some p =>
      by_cases hp : p = 0
      · subst hp
        exact ⟨"Chat requires running under Reflexive CLI (run: reflexive app.py)", rfl⟩
      · exact ⟨e, by rw [chat_unfold_truthy p hp]; rfl⟩

/-- `ReflexiveInstance._sync_state_to_cli(key, value)`: a fire-and-forget
POST whose network outcome is an external input; `except Exception: pass`
swallows every failure, so the call returns nothing in all cases. -/
def syncStateToCli (_key : String) (_value : Value) (_outcome : Except String Unit) : Unit := ()

/-- `ReflexiveInstance.set_state(key, value)`: writes the key into
`AppState._custom_state`, then — when `self._cli_port` is truthy — fires
the best-effort sync, whose outcome is discarded. -/
def ReflexiveInstance.set_state (st : List (String × Value)) (cliPort : Option Nat)
    (k : String) (v : Value) (syncOutcome : Except String Unit) :
    List (String × Value) :=
  let st2 := stateSet st k v
  if truthyPort cliPort then
    let _sunk := syncStateToCli k v syncOutcome
    st2
  else st2

/-- C6: for every key and value, a network failure of the state-sync
notification never reaches the caller of `set_state`: afterwards the
store maps the key to the value, and the resulting store does not depend
on the sync outcome at all. -/
theorem set_state_sync_failure_swallowed :
    ∀ (st : List (String × Value)) (cliPort : Option Nat) (k : String) (v : Value)
      (o1 o2 : Except String Unit),
      stateGet (ReflexiveInstance.set_state st cliPort k v o1) k = some v ∧
      ReflexiveInstance.set_state st cliPort k v o1 =
        ReflexiveInstance.set_state st cliPort k v o2 := by
  intro st cliPort k v o1 o2
  constructor
  · simp only [ReflexiveInstance.set_state]
    split
    · exact stateGet_stateSet st k v
    · exact stateGet_stateSet st k v
  · rfl

/-- The two environment variables `make_reflexive` reads via
`os.environ.get`: `REFLEXIVE_CLI_MODE` and `REFLEXIVE_CLI_PORT`. -/
structure Env where
  cliModeVar : Option String
  cliPortVar : Option String
  deriving Repr, DecidableEq

/-- ASCII decimal digit test. -/
def isAsciiDigit (c : Char) : Bool := 48 ≤ c.toNat && c.toNat ≤ 57

/-- The whitespace characters Python `int()` strips from its argument. -/
def isPyWhitespace (c : Char) : Bool :=
  c.toNat = 32 || c.toNat = 9 || c.toNat = 10 ||
  c.toNat = 13 || c.toNat = 11 || c.toNat = 12

/-- A non-empty all-digit character run read as a natural number. -/
def digitsToNat (cs : List Char) : Option Nat :=
  if cs = [] then none
  else if cs.all isAsciiDigit then
    some (cs.foldl (fun acc c => 10 * acc + (c.toNat - 48)) 0)
  else none

/-- Python `int(s)` on the port string: surrounding whitespace is
stripped, an optional sign precedes a non-empty digit run, and anything
else raises `ValueError` (a `none` result here). -/
def pyInt (s : String) : Option Int :=
  let cs := ((s.data.dropWhile isPyWhitespace).reverse.dropWhile isPyWhitespace).reverse
  match cs with
  | '-' :: rest => (digitsToNat rest).map (fun n => -(n : Int))
  | '+' :: rest => (digitsToNat rest).map (fun n => (n : Int))
  | rest => (digitsToNat rest).map (fun n => (n : Int))

/-- The options dict accepted by `make_reflexive` (and passed through to
`_spawn_cli_process`); an absent key takes the documented default via
`.get`. -/
structure MakeReflexiveOptions where
  spawn_cli : Option Bool := none
  write : Option Bool := none
  debug : Option Bool := none
  shell : Option Bool := none
  port : Option Nat := none
  max_logs : Option Nat := none
  entry : Option String := none
  deriving Repr, DecidableEq

/-- The mode a constructed instance ends in: CHILD connected to the
parent's port, PARENT with a spawned monitor on the configured port, or
standalone (chat disabled). -/
inductive Mode where
  | child (port : Int)
  | spawned (port : Nat)
  | standalone
  deriving Repr, DecidableEq

/-- The mode resolution of `make_reflexive`: if `REFLEXIVE_CLI_MODE` is
exactly `"true"` and `REFLEXIVE_CLI_PORT` is a truthy (non-empty) string,
connect as a child to `int(port)` — `int` raising `ValueError` on a
non-numeric string is the `.error` case. Only otherwise is `spawn_cli`
consulted; whether the spawned CLI survives its startup health check
(`_spawn_cli_process` returning a process or `None`) is the external
input `spawnOk`, and a spawn failure falls back to standalone. -/
def resolveMode (env : Env) (opts : MakeReflexiveOptions) (spawnOk : Bool) :
    Except String Mode :=
  let cliMode : Bool := env.cliModeVar == some "true"
  let portTruthy : Bool :=
    match env.cliPortVar with
    | some s => s != ""
    | none => false
  if cliMode && portTruthy then
    match pyInt (env.cliPortVar.getD "") with
    | some p => .ok (Mode.child p)
    | none => .error "ValueError: invalid literal for int()"
  else
    if opts.spawn_cli.getD false then
      if spawnOk then .ok (Mode.spawned (opts.port.getD 3099))
      else .ok Mode.standalone
    else .ok Mode.standalone

/-- C4: when the environment marks CLI child mode and carries a monitor
port, the instance is created in CHILD mode on that port for every
caller configuration and spawn outcome — the spawn-monitor option is
overridden; and only otherwise is the spawn option consulted: without
the child-mode environment, the instance is PARENT-SPAWNED exactly when
the caller requested a spawn and the spawn succeeded. -/
theorem mode_child_precedence (env : Env) (s : String) (p : Int)
    (hm : env.cliModeVar = some "true") (hp : env.cliPortVar = some s)
    (hparse : pyInt s = some p) :
    (∀ (opts : MakeReflexiveOptions) (spawnOk : Bool),
      resolveMode env opts spawnOk = .ok (Mode.child p)) ∧
    (∀ (env2 : Env) (opts : MakeReflexiveOptions) (spawnOk : Bool),
      ¬(env2.cliModeVar = some "true" ∧ ∃ s2, env2.cliPortVar = some s2 ∧ s2 ≠ "") →
      (resolveMode env2 opts spawnOk = .ok (Mode.spawned (opts.port.getD 3099)) ↔
        (opts.spawn_cli.getD false = true ∧ spawnOk = true))) := by
  constructor
  · intro opts spawnOk
    have hs : s ≠ "" := by
      intro h0
      subst h0
      rw [show pyInt "" = none from rfl] at hparse
      exact Option.noConfusion hparse
    simp [resolveMode, hm, hp, hparse, hs]
  · intro env2 opts spawnOk hnot
    have hcond : ((env2.cliModeVar == some "true") &&
        (match env2.cliPortVar with
          | some s2 => s2 != ""
          | none => false)) = false := by
      rcases henv : env2.cliPortVar with _ | s2
      · simp
      · by_cases hmode : env2.cliModeVar = some "true"
        · have hs2 : s2 = "" := by
            by_contra hne
            exact hnot ⟨hmode, s2, henv, hne⟩
          subst hs2
          simp
        · simp [hmode]
    simp only [resolveMode, hcond]
    cases hsc : opts.spawn_cli.getD false with
    | false => cases spawnOk <;> simp
    | true =>
      cases spawnOk with
      | false => simp
      | true => simp

/-- Witness for C4: child env with port 3099 overrides an explicit
spawn request with a different port. -/
theorem mode_child_precedence_witness :
    resolveMode { cliModeVar := some "true", cliPortVar := some "3099" }
      { spawn_cli := some true, port := some 4000 } true = .ok (Mode.child 3099) :=
  (mode_child_precedence { cliModeVar := some "true", cliPortVar := some "3099" }
      "3099" 3099 rfl rfl (by decide)).1
    { spawn_cli := some true, port := some 4000 } true

/-- The command list built by `_spawn_cli_process(entry_file, options)`:
`["npx", "reflexive"]`, then each enabled capability flag appended in
order (`write` defaults to `True`, `debug` and `shell` to `False`), then
the entry file. -/
def buildCliCmd (entryFile : String) (options : MakeReflexiveOptions) : List String :=
  let cmd := ["npx", "reflexive"]
  let cmd := if options.write.getD true then cmd ++ ["--write"] else cmd
  let cmd := if options.debug.getD false then cmd ++ ["--debug"] else cmd
  let cmd := if options.shell.getD false then cmd ++ ["--shell"] else cmd
  cmd ++ [entryFile]

/-- Modelled from the spec (claim C9 as stated): executable invocation,
the enabled flags in order, then the positional entry-point identifier
AND the configured port. -/
def claimedSpawnCmd (entryFile : String) (options : MakeReflexiveOptions) : List String :=
  ["npx", "reflexive"]
    ++ (if options.write.getD true then ["--write"] else [])
    ++ (if options.debug.getD false then ["--debug"] else [])
    ++ (if options.shell.getD false then ["--shell"] else [])
    ++ [entryFile, toString (options.port.getD 3099)]

/-- The amended C9 wording: as `claimedSpawnCmd` but with no port — the
command ends at the positional entry-point identifier. -/
def amendedSpawnCmd (entryFile : String) (options : MakeReflexiveOptions) : List String :=
  ["npx", "reflexive"]
    ++ (if options.write.getD true then ["--write"] else [])
    ++ (if options.debug.getD false then ["--debug"] else [])
    ++ (if options.shell.getD false then ["--shell"] else [])
    ++ [entryFile]

/-- C9 counterexample: with default options and a configured port of
4123, the built command is `npx reflexive --write app.py` — four tokens
ending at the entry file — not the five-token command with the port that
the claim describes. -/
theorem spawn_cmd_port_counterexample :
    buildCliCmd "app.py" { port := some 4123 } ≠
      claimedSpawnCmd "app.py" { port := some 4123 } ∧
    buildCliCmd "app.py" { port := some 4123 } =
      ["npx", "reflexive", "--write", "app.py"] := by
  constructor
  · intro h
    have hl := congrArg List.length h
    rw [show (buildCliCmd "app.py" { port := some 4123 }).length = 4 from rfl,
      show (claimedSpawnCmd "app.py" { port := some 4123 }).length = 5 from rfl] at hl
    exact absurd hl (by decide)
  · rfl

/-- C9 (amended): for every option set, the spawn command consists of the
executable invocation, then the enabled capability flags among
write-enable, debug-enable and shell-enable in that order, then the
positional entry-point identifier — and nothing else: the configured
port is not part of the command. -/
theorem spawn_cmd_matches_amended_spec (entryFile : String)
    (options : MakeReflexiveOptions) :
    buildCliCmd entryFile options = amendedSpawnCmd entryFile options := by
  cases hw : options.write.getD true <;>
    cases hd : options.debug.getD false <;>
      cases hs : options.shell.getD false <;>
        simp [buildCliCmd, amendedSpawnCmd, hw, hd, hs]

end Reflexive
